import Mathlib

/-!
Shallow embedding of the `RockPaperScissorsGame_FHE_ResultOnly` contract
(Solidity, `src/unnamed/part_004`) and proofs about the specification claims.

Modelling conventions:
* `uint256` values and addresses are `Nat`; the Solidity zero address is `0`.
  Solidity 0.8 arithmetic is checked (reverts on under/overflow); the one
  reachable checked operation, `totalPot - feeAmount` in `fulfillDecryption`,
  is modelled by an explicit guard.
* FHE ciphertext handles (`euint8`) are opaque `Nat` handles; the homomorphic
  outcome computation and `FHE.requestDecryption` are external capabilities,
  so the request id they return and the validity of proofs/signatures are
  parameters of the operations.
* Each external entry point is a function `ContractState → ... → Except Err
  ContractState`; an `.error` result is a Solidity revert, which rolls back
  every state change of the transaction (`applyTx` keeps the pre-state).
* The external value transfers in `withdraw` / `withdrawFees` are modelled by
  a `transferOk` parameter; `withdrawRun` / `withdrawFeesRun` additionally
  return the contract state and amount at the instant of the external call
  (what a reentrant callee would observe), to capture mutation/transfer order.
-/

namespace RPS

/-- Addresses, as natural numbers; `0` plays the role of `address(0)`. -/
abbrev Address := Nat

/-- Revert reasons of the contract (one per `require` string). -/
inductive Err where
  | ContractPaused
  | InvalidGameId
  | MoveDeadlineNotPositive
  | BetMustMatchValue
  | BetOutOfRange
  | HasTwoPlayers
  | OwnGame
  | BetMismatch
  | DeadlinePassed
  | Expired
  | DecryptRequested
  | NotAGamePlayer
  | P1Submitted
  | P2Submitted
  | InvalidProof
  | UnknownRequestId
  | InvalidSignature
  | NoPendingDecrypt
  | InvalidResultCode
  | ArithmeticUnderflow
  | NoBalance
  | WithdrawFailed
  | NotOwner
  | FeeTooHigh
  | InvalidRecipient
  | InvalidLimits
  | NoFeesToWithdraw
  | FeeWithdrawalFailed
  | NoFundsToWithdraw
  | EmergencyWithdrawFailed
  deriving Repr, DecidableEq

/-- The `Game` struct of the contract.  Field defaults are the Solidity
zero-initialised storage slot. -/
structure Game where
  id : Nat := 0
  player1 : Address := 0
  player2 : Address := 0
  betAmount : Nat := 0
  totalPot : Nat := 0
  feeAmount : Nat := 0
  payoutAmount : Nat := 0
  encryptedMove1 : Nat := 0
  encryptedMove2 : Nat := 0
  move1Submitted : Bool := false
  move2Submitted : Bool := false
  startTime : Nat := 0
  moveDeadline : Nat := 0
  decryptRequestTime : Nat := 0
  decryptDeadline : Nat := 0
  decryptionRequested : Bool := false
  decryptionCompleted : Bool := false
  winner : Address := 0
  resultCode : Nat := 0
  isExpired : Bool := false
  refunded : Bool := false
  payoutClaimedP1 : Bool := false
  payoutClaimedP2 : Bool := false
  endTime : Nat := 0
  deriving Repr, DecidableEq

/-- The zero-initialised game record (an untouched storage slot). -/
def defaultGame : Game := {}

/-- Global contract storage. -/
structure ContractState where
  gameIdCounter : Nat
  maxOracleResponseDelay : Nat
  platformFeePercent : Nat
  feeRecipient : Address
  minBet : Nat
  maxBet : Nat
  totalFeesCollected : Nat
  paused : Bool
  owner : Address
  games : Nat → Game
  latestRequestIds : Nat → Nat
  reqIdToGameId : Nat → Nat
  usedRequestIds : Nat → Bool
  withdrawableBalance : Address → Nat

/-- Write one game slot. -/
def setGame (s : ContractState) (gid : Nat) (g : Game) : ContractState :=
  { s with games := fun i => if i = gid then g else s.games i }

/-- Credit `amt` to address `a` on a balance mapping (`bal[a] += amt`). -/
def credit (bal : Address → Nat) (a : Address) (amt : Nat) : Address → Nat :=
  fun x => if x = a then bal a + amt else bal x

/-- The constructor: `Ownable(msg.sender)` plus the explicit field
initialisations; all mappings are zero-initialised storage. -/
def initialState (deployer : Address) (delay feePercent : Nat)
    (recipient : Address) (minB maxB : Nat) : ContractState :=
  { gameIdCounter := 0
    maxOracleResponseDelay := delay
    platformFeePercent := feePercent
    feeRecipient := recipient
    minBet := minB
    maxBet := maxB
    totalFeesCollected := 0
    paused := false
    owner := deployer
    games := fun _ => defaultGame
    latestRequestIds := fun _ => 0
    reqIdToGameId := fun _ => 0
    usedRequestIds := fun _ => false
    withdrawableBalance := fun _ => 0 }

/-- Transaction semantics: a revert (`.error`) rolls back to the pre-state. -/
def applyTx (s : ContractState) (r : Except Err ContractState) : ContractState :=
  match r with
  | .ok s' => s'
  | .error _ => s

/-- Embedding of `createGame(encryptedMove, proof, moveDeadline, betAmount)`; `proofOk`
models whether `FHE.fromExternal` accepts the proof, `msgValue` is the
attached value and `now` is `block.timestamp`. -/
def createGame (s : ContractState) (sender : Address) (msgValue : Nat)
    (encMove : Nat) (proofOk : Bool) (moveDeadline betAmount now : Nat) :
    Except Err ContractState :=
  if s.paused then .error .ContractPaused
  else if moveDeadline = 0 then .error .MoveDeadlineNotPositive
  else if msgValue ≠ betAmount then .error .BetMustMatchValue
  else if ¬ (s.minBet ≤ betAmount ∧ betAmount ≤ s.maxBet) then .error .BetOutOfRange
  else if ¬ proofOk then .error .InvalidProof
  else
    let gameId := s.gameIdCounter + 1
    let g := s.games gameId
    let g' := { g with
      id := gameId
      player1 := sender
      betAmount := betAmount
      totalPot := betAmount
      encryptedMove1 := encMove
      move1Submitted := true
      startTime := now
      moveDeadline := now + moveDeadline }
    .ok (setGame { s with gameIdCounter := gameId } gameId g')

/-- Embedding of `_computeAndRequestDecryption(gameId)`.  The homomorphic outcome
ciphertext is opaque; `requestId` is the id returned by the external
`FHE.requestDecryption`. -/
def computeAndRequestDecryption (s : ContractState) (gameId requestId now : Nat) :
    Except Err ContractState :=
  let game := s.games gameId
  if game.decryptionRequested then .error .DecryptRequested
  else
    let g' := { game with
      decryptionRequested := true
      decryptRequestTime := now
      decryptDeadline := now + s.maxOracleResponseDelay }
    let s1 := setGame s gameId g'
    .ok { s1 with
      latestRequestIds := fun i => if i = gameId then requestId else s.latestRequestIds i
      reqIdToGameId := fun r => if r = requestId then gameId else s.reqIdToGameId r }

/-- Embedding of `joinGame(gameId, encryptedMove, proof)`; note the source has no
`whenNotPaused` modifier on this entry point. -/
def joinGame (s : ContractState) (sender : Address) (msgValue : Nat)
    (gameId : Nat) (encMove : Nat) (proofOk : Bool) (requestId now : Nat) :
    Except Err ContractState :=
  if ¬ (0 < gameId ∧ gameId ≤ s.gameIdCounter) then .error .InvalidGameId
  else
    let game := s.games gameId
    if game.player2 ≠ 0 then .error .HasTwoPlayers
    else if sender = game.player1 then .error .OwnGame
    else if msgValue ≠ game.betAmount then .error .BetMismatch
    else if ¬ (now ≤ game.moveDeadline) then .error .DeadlinePassed
    else if game.isExpired then .error .Expired
    else if game.decryptionRequested then .error .DecryptRequested
    else if ¬ proofOk then .error .InvalidProof
    else
      let g1 := { game with
        player2 := sender
        encryptedMove2 := encMove
        move2Submitted := true
        totalPot := game.betAmount * 2 }
      computeAndRequestDecryption (setGame s gameId g1) gameId requestId now

/-- Embedding of `submitMove(gameId, encryptedMove, proof)`. -/
def submitMove (s : ContractState) (sender : Address) (gameId : Nat)
    (encMove : Nat) (proofOk : Bool) (now : Nat) : Except Err ContractState :=
  if s.paused then .error .ContractPaused
  else if ¬ (0 < gameId ∧ gameId ≤ s.gameIdCounter) then .error .InvalidGameId
  else
    let game := s.games gameId
    if ¬ (sender = game.player1 ∨ sender = game.player2) then .error .NotAGamePlayer
    else if ¬ (now ≤ game.moveDeadline) then .error .DeadlinePassed
    else if ¬ proofOk then .error .InvalidProof
    else if sender = game.player1 then
      if game.move1Submitted then .error .P1Submitted
      else .ok (setGame s gameId { game with encryptedMove1 := encMove, move1Submitted := true })
    else
      if game.move2Submitted then .error .P2Submitted
      else .ok (setGame s gameId { game with encryptedMove2 := encMove, move2Submitted := true })

/-- The fallback loop of `fulfillDecryption`: scan `latestRequestIds` from
`gameIdCounter` down to `1`, returning the first game whose latest request id
matches (`0` when none does). -/
def findGameByReqId (latest : Nat → Nat) (requestId : Nat) : Nat → Nat
  | 0 => 0
  | n + 1 => if latest (n + 1) = requestId then n + 1 else findGameByReqId latest requestId n

/-- The game id `fulfillDecryption` resolves a request id to: the
`reqIdToGameId` mapping, falling back to the scan when it yields `0`. -/
def fulfillLookup (s : ContractState) (requestId : Nat) : Nat :=
  let direct := s.reqIdToGameId requestId
  if direct = 0 then findGameByReqId s.latestRequestIds requestId s.gameIdCounter else direct

/-- Embedding of `fulfillDecryption(requestId, cleartexts, decryptionProof)`.  `sigOk`
models `FHE.checkSignatures`; `resultCode` is the `uint8` decoded from
`cleartexts`.  Note the source never reads `usedRequestIds` and never checks
`isExpired` here. -/
def fulfillDecryption (s : ContractState) (requestId : Nat) (sigOk : Bool)
    (resultCode now : Nat) : Except Err ContractState :=
  let gameId := fulfillLookup s requestId
  if gameId = 0 then .error .UnknownRequestId
  else
    let game := s.games gameId
    if ¬ sigOk then .error .InvalidSignature
    else if ¬ game.decryptionRequested then .error .NoPendingDecrypt
    else
      let g1 := { game with decryptionCompleted := true, decryptionRequested := false }
      let s1 := { setGame s gameId g1 with
        usedRequestIds := fun r => if r = requestId then true else s.usedRequestIds r }
      if ¬ (resultCode ≤ 2) then .error .InvalidResultCode
      else
        let winner : Address :=
          if resultCode = 0 then game.player1
          else if resultCode = 1 then game.player2
          else 0
        let g2 := { g1 with resultCode := resultCode, winner := winner, endTime := now }
        let s2 := setGame s1 gameId g2
        if resultCode = 2 then
          let bal1 := credit s2.withdrawableBalance game.player1 game.betAmount
          let bal2 := credit bal1 game.player2 game.betAmount
          .ok { s2 with withdrawableBalance := bal2 }
        else
          let feeAmount := game.totalPot * s.platformFeePercent / 10000
          if game.totalPot < feeAmount then .error .ArithmeticUnderflow
          else
            let g3 := { g2 with feeAmount := feeAmount, payoutAmount := game.totalPot - feeAmount }
            let s3 := setGame s2 gameId g3
            .ok { s3 with
              withdrawableBalance := credit s3.withdrawableBalance winner (game.totalPot - feeAmount)
              totalFeesCollected := s.totalFeesCollected + feeAmount }

/-- Embedding of `withdraw()`, together with the observation made by the external call:
the second component is `some (state, amount)` when the external transfer is
attempted, where `state` is the contract state at that instant. -/
def withdrawRun (s : ContractState) (sender : Address) (transferOk : Bool) :
    Except Err ContractState × Option (ContractState × Nat) :=
  let amount := s.withdrawableBalance sender
  if amount = 0 then (.error .NoBalance, none)
  else
    let s1 := { s with withdrawableBalance := fun a => if a = sender then 0 else s.withdrawableBalance a }
    if transferOk then (.ok s1, some (s1, amount))
    else (.error .WithdrawFailed, some (s1, amount))

/-- The `withdraw()` entry point as a transaction. -/
def withdraw (s : ContractState) (sender : Address) (transferOk : Bool) :
    Except Err ContractState :=
  (withdrawRun s sender transferOk).1

/-- Embedding of `withdrawFees()` with the external-call observation; the source performs
the transfer to `feeRecipient` first and zeroes `totalFeesCollected` only
after success, so the observed state is `s` itself. -/
def withdrawFeesRun (s : ContractState) (sender : Address) (transferOk : Bool) :
    Except Err ContractState × Option (ContractState × Nat) :=
  if sender ≠ s.owner then (.error .NotOwner, none)
  else if s.totalFeesCollected = 0 then (.error .NoFeesToWithdraw, none)
  else
    let amount := s.totalFeesCollected
    if transferOk then (.ok { s with totalFeesCollected := 0 }, some (s, amount))
    else (.error .FeeWithdrawalFailed, some (s, amount))

/-- The `withdrawFees()` entry point as a transaction. -/
def withdrawFees (s : ContractState) (sender : Address) (transferOk : Bool) :
    Except Err ContractState :=
  (withdrawFeesRun s sender transferOk).1

/-- Embedding of `_expireGame(gameId, reason)`: mark expired and refund `betAmount` to
each joined player. -/
def expireGame (s : ContractState) (gameId now : Nat) : ContractState :=
  let game := s.games gameId
  let s1 := setGame s gameId { game with isExpired := true, endTime := now }
  let bal1 := if game.player1 ≠ 0 then credit s1.withdrawableBalance game.player1 game.betAmount
              else s1.withdrawableBalance
  let bal2 := if game.player2 ≠ 0 then credit bal1 game.player2 game.betAmount
              else bal1
  { s1 with withdrawableBalance := bal2 }

/-- Embedding of `checkAndExpireGame(gameId)`. -/
def checkAndExpireGame (s : ContractState) (gameId now : Nat) :
    Except Err ContractState :=
  if ¬ (0 < gameId ∧ gameId ≤ s.gameIdCounter) then .error .InvalidGameId
  else
    let game := s.games gameId
    if game.isExpired then .error .Expired
    else
      if (game.player2 = 0 ∧ game.moveDeadline < now) ∨
         (game.decryptionRequested ∧ ¬ game.decryptionCompleted ∧ game.decryptDeadline < now) then
        .ok (expireGame s gameId now)
      else .ok s

/-- Embedding of `batchExpireGames(gameIds)`: a plain loop over `checkAndExpireGame`; any
revert inside an iteration reverts the whole call. -/
def batchExpireGames (s : ContractState) (gameIds : List Nat) (now : Nat) :
    Except Err ContractState :=
  match gameIds with
  | [] => .ok s
  | gid :: rest =>
    match checkAndExpireGame s gid now with
    | .error e => .error e
    | .ok s' => batchExpireGames s' rest now

/-- Embedding of `setPlatformFeePercent`. -/
def setPlatformFeePercent (s : ContractState) (sender : Address) (p : Nat) :
    Except Err ContractState :=
  if sender ≠ s.owner then .error .NotOwner
  else if ¬ (p ≤ 1000) then .error .FeeTooHigh
  else .ok { s with platformFeePercent := p }

/-- Embedding of `setFeeRecipient`. -/
def setFeeRecipient (s : ContractState) (sender r : Address) :
    Except Err ContractState :=
  if sender ≠ s.owner then .error .NotOwner
  else if r = 0 then .error .InvalidRecipient
  else .ok { s with feeRecipient := r }

/-- Embedding of `setBetLimits`. -/
def setBetLimits (s : ContractState) (sender : Address) (lo hi : Nat) :
    Except Err ContractState :=
  if sender ≠ s.owner then .error .NotOwner
  else if ¬ (lo ≤ hi) then .error .InvalidLimits
  else .ok { s with minBet := lo, maxBet := hi }

/-- Embedding of `pause()`. -/
def pause (s : ContractState) (sender : Address) : Except Err ContractState :=
  if sender ≠ s.owner then .error .NotOwner else .ok { s with paused := true }

/-- Embedding of `unpause()`. -/
def unpause (s : ContractState) (sender : Address) : Except Err ContractState :=
  if sender ≠ s.owner then .error .NotOwner else .ok { s with paused := false }

/-- Embedding of `emergencyWithdraw()`: transfers the whole native balance (not part of
the modelled storage) to the owner; storage is unchanged on success. -/
def emergencyWithdraw (s : ContractState) (sender : Address)
    (contractBalance : Nat) (transferOk : Bool) : Except Err ContractState :=
  if sender ≠ s.owner then .error .NotOwner
  else if contractBalance = 0 then .error .NoFundsToWithdraw
  else if ¬ transferOk then .error .EmergencyWithdrawFailed
  else .ok s

/-- Boolean success of a transaction result. -/
def txOk (r : Except Err ContractState) : Bool :=
  match r with
  | .ok _ => true
  | .error _ => false

/-! ### Concrete execution traces

A deployment with owner `1`, oracle-response budget `10`, fee `250` basis
points (2.5%), fee recipient `2`, bet bounds `[10, 1000]`; players are
addresses `10`, `11` and `12`.  Times are `block.timestamp` values. -/

/-- Freshly deployed contract. -/
def exS0 : ContractState := initialState 1 10 250 2 10 1000

/-- Player `10` creates game 1 at time `0` with stake `50` and deadline
offset `100`. -/
def exS1 : ContractState := applyTx exS0 (createGame exS0 10 50 7 true 100 50 0)

/-- Player `11` joins game 1 at time `0`; the decryption request gets
correlation id `99` and deadline `10`. -/
def exS2 : ContractState := applyTx exS1 (joinGame exS1 11 50 1 8 true 99 0)

/-- Game 1 is swept at time `11`, past its decryption deadline: it expires
and both stakes are refunded. -/
def exS3 : ContractState := applyTx exS2 (checkAndExpireGame exS2 1 11)

/-- The oracle callback for request `99` arrives at time `12`, after the
expiry sweep, reporting a player-1 win. -/
def exS4 : ContractState := applyTx exS3 (fulfillDecryption exS3 99 true 0 12)

/-- Alternative continuation of `exS2`: the callback for request `99`
arrives in time (time `5`), reporting a player-1 win. -/
def exS5 : ContractState := applyTx exS2 (fulfillDecryption exS2 99 true 0 5)

/-- Player `12` creates game 2 at time `0` (continuing from `exS1`). -/
def exB2 : ContractState := applyTx exS1 (createGame exS1 12 50 9 true 100 50 0)

/-- Game 1 is swept at time `101`, past its move deadline with no second
player: it expires.  Game 2 is also eligible but has not been swept. -/
def exB3 : ContractState := applyTx exB2 (checkAndExpireGame exB2 1 101)

/-- Sweeping game 2 of `exB3` at time `101` succeeds. -/
def exB4 : ContractState := applyTx exB3 (checkAndExpireGame exB3 2 101)

/-- The owner pauses the contract while game 1 is still open. -/
def exP : ContractState := applyTx exS1 (pause exS1 1)

/-- Structural invariants maintained by every entry point. -/
structure Inv (s : ContractState) : Prop where
  fresh : ∀ g, s.gameIdCounter < g → s.games g = defaultGame
  flags1 : ∀ g, (s.games g).player1 ≠ 0 → (s.games g).move1Submitted = true
  flags2 : ∀ g, (s.games g).player2 ≠ 0 → (s.games g).move2Submitted = true
  reqP2 : ∀ g, (s.games g).decryptionRequested = true → (s.games g).player2 ≠ 0
  compP2 : ∀ g, (s.games g).decryptionCompleted = true → (s.games g).player2 ≠ 0
  compNotReq : ∀ g, (s.games g).decryptionCompleted = true → (s.games g).decryptionRequested = false
  refundedFalse : ∀ g, (s.games g).refunded = false

/-! ### The transition system -/

/-- One successful externally triggered transaction.  A reverted transaction
leaves no trace on storage, so only `.ok` results generate steps.  On
Ethereum `msg.sender` is never the zero address, hence the `sender ≠ 0` side
conditions.  The `ownable` case covers the inherited
`transferOwnership` / `renounceOwnership` of `Ownable`, which only write the
owner slot. -/
inductive Step : ContractState → ContractState → Prop where
  | createGame {s s' : ContractState} {sender : Address} {mv em : Nat}
      {p : Bool} {dl bet now : Nat} (hs : sender ≠ 0)
      (h : createGame s sender mv em p dl bet now = .ok s') : Step s s'
  | joinGame {s s' : ContractState} {sender : Address} {mv gid em : Nat}
      {p : Bool} {rq now : Nat} (hs : sender ≠ 0)
      (h : joinGame s sender mv gid em p rq now = .ok s') : Step s s'
  | submitMove {s s' : ContractState} {sender : Address} {gid em : Nat}
      {p : Bool} {now : Nat} (hs : sender ≠ 0)
      (h : submitMove s sender gid em p now = .ok s') : Step s s'
  | fulfillDecryption {s s' : ContractState} {rid : Nat} {sig : Bool}
      {rc now : Nat}
      (h : fulfillDecryption s rid sig rc now = .ok s') : Step s s'
  | checkAndExpireGame {s s' : ContractState} {gid now : Nat}
      (h : checkAndExpireGame s gid now = .ok s') : Step s s'
  | batchExpireGames {s s' : ContractState} {ids : List Nat} {now : Nat}
      (h : batchExpireGames s ids now = .ok s') : Step s s'
  | withdraw {s s' : ContractState} {sender : Address} {t : Bool}
      (h : withdraw s sender t = .ok s') : Step s s'
  | withdrawFees {s s' : ContractState} {sender : Address} {t : Bool}
      (h : withdrawFees s sender t = .ok s') : Step s s'
  | setPlatformFeePercent {s s' : ContractState} {sender : Address} {p : Nat}
      (h : setPlatformFeePercent s sender p = .ok s') : Step s s'
  | setFeeRecipient {s s' : ContractState} {sender r : Address}
      (h : setFeeRecipient s sender r = .ok s') : Step s s'
  | setBetLimits {s s' : ContractState} {sender : Address} {lo hi : Nat}
      (h : setBetLimits s sender lo hi = .ok s') : Step s s'
  | pause {s s' : ContractState} {sender : Address}
      (h : pause s sender = .ok s') : Step s s'
  | unpause {s s' : ContractState} {sender : Address}
      (h : unpause s sender = .ok s') : Step s s'
  | emergencyWithdraw {s s' : ContractState} {sender : Address} {b : Nat}
      {t : Bool} (h : emergencyWithdraw s sender b t = .ok s') : Step s s'
  | ownable {s s' : ContractState} {a : Address}
      (h : s' = { s with owner := a }) : Step s s'

/-- States reachable from some deployment by successful transactions. -/
def Reachable (s : ContractState) : Prop :=
  ∃ d delay fp r lo hi,
    Relation.ReflTransGen Step (initialState d delay fp r lo hi) s


/-! ### Reachable-state invariants -/

theorem inv_initialState (d delay fp r lo hi : Nat) :
    Inv (initialState d delay fp r lo hi) := by
  refine ⟨?_, ?_, ?_, ?_, ?_, ?_, ?_⟩ <;> intro g <;>
    simp [initialState, defaultGame]

/-- The invariant `Inv` only looks at the game table and the id counter. -/
theorem inv_of_eq (s s' : ContractState) (h : Inv s)
    (hg : s'.games = s.games) (hc : s'.gameIdCounter = s.gameIdCounter) : Inv s' := by
  refine ⟨?_, ?_, ?_, ?_, ?_, ?_, ?_⟩ <;> intro g
  · intro hlt; rw [hc] at hlt; rw [hg]; exact h.fresh g hlt
  · rw [hg]; exact h.flags1 g
  · rw [hg]; exact h.flags2 g
  · rw [hg]; exact h.reqP2 g
  · rw [hg]; exact h.compP2 g
  · rw [hg]; exact h.compNotReq g
  · rw [hg]; exact h.refundedFalse g

/-- Updating one existing slot preserves `Inv` when the new record satisfies
the per-game obligations. -/
theorem inv_update (s s' : ContractState) (h : Inv s) (gid : Nat) (g' : Game)
    (hle : gid ≤ s.gameIdCounter)
    (hg : s'.games = fun i => if i = gid then g' else s.games i)
    (hc : s'.gameIdCounter = s.gameIdCounter)
    (hf1 : g'.player1 ≠ 0 → g'.move1Submitted = true)
    (hf2 : g'.player2 ≠ 0 → g'.move2Submitted = true)
    (hrq : g'.decryptionRequested = true → g'.player2 ≠ 0)
    (hcp : g'.decryptionCompleted = true → g'.player2 ≠ 0)
    (hcr : g'.decryptionCompleted = true → g'.decryptionRequested = false)
    (hrf : g'.refunded = false) : Inv s' := by
  refine ⟨?_, ?_, ?_, ?_, ?_, ?_, ?_⟩ <;> intro g
  · intro hlt
    rw [hc] at hlt
    have hne : g ≠ gid := by omega
    rw [hg]
    simpa [hne] using h.fresh g hlt
  · rw [hg]; by_cases hgi : g = gid
    · simpa [hgi] using hf1
    · simpa [hgi] using h.flags1 g
  · rw [hg]; by_cases hgi : g = gid
    · simpa [hgi] using hf2
    · simpa [hgi] using h.flags2 g
  · rw [hg]; by_cases hgi : g = gid
    · simpa [hgi] using hrq
    · simpa [hgi] using h.reqP2 g
  · rw [hg]; by_cases hgi : g = gid
    · simpa [hgi] using hcp
    · simpa [hgi] using h.compP2 g
  · rw [hg]; by_cases hgi : g = gid
    · simpa [hgi] using hcr
    · simpa [hgi] using h.compNotReq g
  · rw [hg]; by_cases hgi : g = gid
    · simpa [hgi] using hrf
    · simpa [hgi] using h.refundedFalse g

/-- Writing the freshly allocated slot (as `createGame` does) preserves
`Inv`. -/
theorem inv_update_new (s s' : ContractState) (h : Inv s) (g' : Game)
    (hg : s'.games = fun i => if i = s.gameIdCounter + 1 then g' else s.games i)
    (hc : s'.gameIdCounter = s.gameIdCounter + 1)
    (hf1 : g'.player1 ≠ 0 → g'.move1Submitted = true)
    (hf2 : g'.player2 ≠ 0 → g'.move2Submitted = true)
    (hrq : g'.decryptionRequested = true → g'.player2 ≠ 0)
    (hcp : g'.decryptionCompleted = true → g'.player2 ≠ 0)
    (hcr : g'.decryptionCompleted = true → g'.decryptionRequested = false)
    (hrf : g'.refunded = false) : Inv s' := by
  refine ⟨?_, ?_, ?_, ?_, ?_, ?_, ?_⟩ <;> intro g
  · intro hlt
    rw [hc] at hlt
    have hne : g ≠ s.gameIdCounter + 1 := by omega
    rw [hg]
    simpa [hne] using h.fresh g (by omega)
  · rw [hg]; by_cases hgi : g = s.gameIdCounter + 1
    · simpa [hgi] using hf1
    · simpa [hgi] using h.flags1 g
  · rw [hg]; by_cases hgi : g = s.gameIdCounter + 1
    · simpa [hgi] using hf2
    · simpa [hgi] using h.flags2 g
  · rw [hg]; by_cases hgi : g = s.gameIdCounter + 1
    · simpa [hgi] using hrq
    · simpa [hgi] using h.reqP2 g
  · rw [hg]; by_cases hgi : g = s.gameIdCounter + 1
    · simpa [hgi] using hcp
    · simpa [hgi] using h.compP2 g
  · rw [hg]; by_cases hgi : g = s.gameIdCounter + 1
    · simpa [hgi] using hcr
    · simpa [hgi] using h.compNotReq g
  · rw [hg]; by_cases hgi : g = s.gameIdCounter + 1
    · simpa [hgi] using hrf
    · simpa [hgi] using h.refundedFalse g

theorem inv_createGame (s s' : ContractState) (sender : Address) (mv em : Nat)
    (p : Bool) (dl bet now : Nat) (h : Inv s)
    (hok : createGame s sender mv em p dl bet now = .ok s') : Inv s' := by
  have hdef : s.games (s.gameIdCounter + 1) = defaultGame :=
    h.fresh _ (Nat.lt_succ_self _)
  simp only [createGame] at hok
  split at hok
  · simp at hok
  split at hok
  · simp at hok
  split at hok
  · simp at hok
  split at hok
  · simp at hok
  split at hok
  · simp at hok
  injection hok with hok
  subst hok
  refine inv_update_new s _ h _ rfl rfl ?_ ?_ ?_ ?_ ?_ ?_
  · intro _; rfl
  · simp [setGame, hdef, defaultGame]
  · simp [setGame, hdef, defaultGame]
  · simp [setGame, hdef, defaultGame]
  · simp [setGame, hdef, defaultGame]
  · simp [setGame, hdef, defaultGame]

theorem setGame_games_self (s : ContractState) (gid : Nat) (g : Game) :
    (setGame s gid g).games gid = g := by simp [setGame]

/-- Inversion of a successful `_computeAndRequestDecryption`. -/
theorem computeAndRequest_ok (s : ContractState) (gid rq now : Nat)
    (s' : ContractState)
    (hok : computeAndRequestDecryption s gid rq now = .ok s') :
    (s.games gid).decryptionRequested = false ∧
    s' = { setGame s gid
            { s.games gid with
              decryptionRequested := true
              decryptRequestTime := now
              decryptDeadline := now + s.maxOracleResponseDelay } with
           latestRequestIds := fun i => if i = gid then rq else s.latestRequestIds i
           reqIdToGameId := fun r => if r = rq then gid else s.reqIdToGameId r } := by
  simp only [computeAndRequestDecryption] at hok
  split at hok
  · simp at hok
  rename_i hreq
  rw [Bool.not_eq_true] at hreq
  injection hok with hok
  exact ⟨hreq, hok.symm⟩

theorem inv_joinGame (s s' : ContractState) (sender : Address) (mv gid em : Nat)
    (p : Bool) (rq now : Nat) (h : Inv s) (hs : sender ≠ 0)
    (hok : joinGame s sender mv gid em p rq now = .ok s') : Inv s' := by
  simp only [joinGame] at hok
  split at hok
  · simp at hok
  rename_i hvalid
  rw [not_not] at hvalid
  split at hok
  · simp at hok
  rename_i hp2
  rw [not_not] at hp2
  split at hok
  · simp at hok
  split at hok
  · simp at hok
  split at hok
  · simp at hok
  split at hok
  · simp at hok
  split at hok
  · simp at hok
  split at hok
  · simp at hok
  obtain ⟨hreq1, rfl⟩ := computeAndRequest_ok _ _ _ _ _ hok
  refine inv_update s _ h gid
    { s.games gid with
      player2 := sender
      encryptedMove2 := em
      move2Submitted := true
      totalPot := (s.games gid).betAmount * 2
      decryptionRequested := true
      decryptRequestTime := now
      decryptDeadline := now + s.maxOracleResponseDelay }
    hvalid.2 ?_ rfl ?_ ?_ ?_ ?_ ?_ ?_
  · funext i
    by_cases hi : i = gid <;> simp [setGame, hi]
  · simpa using h.flags1 gid
  · intro _; rfl
  · intro _; simpa using hs
  · intro _; simpa using hs
  · intro hcc
    exact absurd hp2 (h.compP2 gid (by simpa using hcc))
  · simpa using h.refundedFalse gid

theorem inv_submitMove (s s' : ContractState) (sender : Address) (gid em : Nat)
    (p : Bool) (now : Nat) (h : Inv s)
    (hok : submitMove s sender gid em p now = .ok s') : Inv s' := by
  simp only [submitMove] at hok
  split at hok
  · simp at hok
  split at hok
  · simp at hok
  rename_i hvalid
  rw [not_not] at hvalid
  split at hok
  · simp at hok
  split at hok
  · simp at hok
  split at hok
  · simp at hok
  split at hok
  · split at hok
    · simp at hok
    injection hok with hok
    subst hok
    refine inv_update s _ h gid
      { s.games gid with encryptedMove1 := em, move1Submitted := true }
      hvalid.2 rfl rfl ?_ ?_ ?_ ?_ ?_ ?_
    · intro _; rfl
    · simpa using h.flags2 gid
    · simpa using h.reqP2 gid
    · simpa using h.compP2 gid
    · simpa using h.compNotReq gid
    · simpa using h.refundedFalse gid
  · split at hok
    · simp at hok
    injection hok with hok
    subst hok
    refine inv_update s _ h gid
      { s.games gid with encryptedMove2 := em, move2Submitted := true }
      hvalid.2 rfl rfl ?_ ?_ ?_ ?_ ?_ ?_
    · simpa using h.flags1 gid
    · intro _; rfl
    · simpa using h.reqP2 gid
    · simpa using h.compP2 gid
    · simpa using h.compNotReq gid
    · simpa using h.refundedFalse gid

theorem inv_fulfill (s s' : ContractState) (rid : Nat) (sig : Bool) (rc now : Nat)
    (h : Inv s) (hok : fulfillDecryption s rid sig rc now = .ok s') : Inv s' := by
  simp only [fulfillDecryption] at hok
  split at hok
  · simp at hok
  split at hok
  · simp at hok
  split at hok
  · simp at hok
  rename_i hreqn
  rw [not_not] at hreqn
  have hreq : (s.games (fulfillLookup s rid)).decryptionRequested = true := hreqn
  have hle : fulfillLookup s rid ≤ s.gameIdCounter := by
    by_contra hgt
    push_neg at hgt
    have hd := h.fresh _ hgt
    rw [hd] at hreq
    simp [defaultGame] at hreq
  have hp2 : (s.games (fulfillLookup s rid)).player2 ≠ 0 := h.reqP2 _ hreq
  split at hok
  · simp at hok
  split at hok
  · injection hok with hok
    subst hok
    refine inv_update s _ h (fulfillLookup s rid)
      { s.games (fulfillLookup s rid) with
        decryptionCompleted := true
        decryptionRequested := false
        resultCode := rc
        winner := if rc = 0 then (s.games (fulfillLookup s rid)).player1
                  else if rc = 1 then (s.games (fulfillLookup s rid)).player2
                  else 0
        endTime := now }
      hle ?_ rfl ?_ ?_ ?_ ?_ ?_ ?_
    · funext i
      by_cases hi : i = fulfillLookup s rid <;> simp [setGame, hi]
    · simpa using h.flags1 _
    · simpa using h.flags2 _
    · intro hx; simp at hx
    · intro _; simpa using hp2
    · intro _; rfl
    · simpa using h.refundedFalse _
  · split at hok
    · simp at hok
    injection hok with hok
    subst hok
    refine inv_update s _ h (fulfillLookup s rid)
      { s.games (fulfillLookup s rid) with
        decryptionCompleted := true
        decryptionRequested := false
        resultCode := rc
        winner := if rc = 0 then (s.games (fulfillLookup s rid)).player1
                  else if rc = 1 then (s.games (fulfillLookup s rid)).player2
                  else 0
        endTime := now
        feeAmount := (s.games (fulfillLookup s rid)).totalPot * s.platformFeePercent / 10000
        payoutAmount := (s.games (fulfillLookup s rid)).totalPot -
          (s.games (fulfillLookup s rid)).totalPot * s.platformFeePercent / 10000 }
      hle ?_ rfl ?_ ?_ ?_ ?_ ?_ ?_
    · funext i
      by_cases hi : i = fulfillLookup s rid <;> simp [setGame, hi]
    · simpa using h.flags1 _
    · simpa using h.flags2 _
    · intro hx; simp at hx
    · intro _; simpa using hp2
    · intro _; rfl
    · simpa using h.refundedFalse _

theorem inv_checkAndExpire (s s' : ContractState) (gid now : Nat) (h : Inv s)
    (hok : checkAndExpireGame s gid now = .ok s') : Inv s' := by
  simp only [checkAndExpireGame] at hok
  split at hok
  · simp at hok
  rename_i hvalid
  rw [not_not] at hvalid
  split at hok
  · simp at hok
  split at hok
  · injection hok with hok
    subst hok
    refine inv_update s _ h gid
      { s.games gid with isExpired := true, endTime := now }
      hvalid.2 ?_ rfl ?_ ?_ ?_ ?_ ?_ ?_
    · funext i
      by_cases hi : i = gid <;> simp [expireGame, setGame, hi]
    · simpa using h.flags1 gid
    · simpa using h.flags2 gid
    · simpa using h.reqP2 gid
    · simpa using h.compP2 gid
    · simpa using h.compNotReq gid
    · simpa using h.refundedFalse gid
  · injection hok with hok
    subst hok
    exact h

theorem inv_batch (ids : List Nat) (now : Nat) :
    ∀ s s' : ContractState, Inv s → batchExpireGames s ids now = .ok s' → Inv s' := by
  induction ids with
  | nil =>
    intro s s' h hok
    simp only [batchExpireGames] at hok
    injection hok with hok
    subst hok
    exact h
  | cons gid rest ih =>
    intro s s' h hok
    simp only [batchExpireGames] at hok
    split at hok
    · simp at hok
    rename_i s1 hck
    exact ih s1 s' (inv_checkAndExpire s s1 gid now h hck) hok

theorem inv_withdraw (s s' : ContractState) (sender : Address) (t : Bool)
    (h : Inv s) (hok : withdraw s sender t = .ok s') : Inv s' := by
  simp only [withdraw, withdrawRun] at hok
  split at hok
  · simp at hok
  split at hok
  · simp only at hok
    injection hok with hok
    subst hok
    exact inv_of_eq s _ h rfl rfl
  · simp at hok

theorem inv_withdrawFees (s s' : ContractState) (sender : Address) (t : Bool)
    (h : Inv s) (hok : withdrawFees s sender t = .ok s') : Inv s' := by
  simp only [withdrawFees, withdrawFeesRun] at hok
  split at hok
  · simp at hok
  split at hok
  · simp at hok
  split at hok
  · simp only at hok
    injection hok with hok
    subst hok
    exact inv_of_eq s _ h rfl rfl
  · simp at hok

theorem inv_setPlatformFeePercent (s s' : ContractState) (sender : Address)
    (p : Nat) (h : Inv s)
    (hok : setPlatformFeePercent s sender p = .ok s') : Inv s' := by
  simp only [setPlatformFeePercent] at hok
  split at hok
  · simp at hok
  split at hok
  · simp at hok
  injection hok with hok
  subst hok
  exact inv_of_eq s _ h rfl rfl

theorem inv_setFeeRecipient (s s' : ContractState) (sender r : Address)
    (h : Inv s) (hok : setFeeRecipient s sender r = .ok s') : Inv s' := by
  simp only [setFeeRecipient] at hok
  split at hok
  · simp at hok
  split at hok
  · simp at hok
  injection hok with hok
  subst hok
  exact inv_of_eq s _ h rfl rfl

theorem inv_setBetLimits (s s' : ContractState) (sender : Address) (lo hi : Nat)
    (h : Inv s) (hok : setBetLimits s sender lo hi = .ok s') : Inv s' := by
  simp only [setBetLimits] at hok
  split at hok
  · simp at hok
  split at hok
  · simp at hok
  injection hok with hok
  subst hok
  exact inv_of_eq s _ h rfl rfl

theorem inv_pause (s s' : ContractState) (sender : Address) (h : Inv s)
    (hok : pause s sender = .ok s') : Inv s' := by
  simp only [pause] at hok
  split at hok
  · simp at hok
  injection hok with hok
  subst hok
  exact inv_of_eq s _ h rfl rfl

theorem inv_unpause (s s' : ContractState) (sender : Address) (h : Inv s)
    (hok : unpause s sender = .ok s') : Inv s' := by
  simp only [unpause] at hok
  split at hok
  · simp at hok
  injection hok with hok
  subst hok
  exact inv_of_eq s _ h rfl rfl

theorem inv_emergencyWithdraw (s s' : ContractState) (sender : Address)
    (b : Nat) (t : Bool) (h : Inv s)
    (hok : emergencyWithdraw s sender b t = .ok s') : Inv s' := by
  simp only [emergencyWithdraw] at hok
  split at hok
  · simp at hok
  split at hok
  · simp at hok
  split at hok
  · simp at hok
  injection hok with hok
  subst hok
  exact h

theorem inv_step (s s' : ContractState) (h : Inv s) (hst : Step s s') : Inv s' := by
  cases hst with
  | createGame hs hok => exact inv_createGame _ _ _ _ _ _ _ _ _ h hok
  | joinGame hs hok => exact inv_joinGame _ _ _ _ _ _ _ _ _ h hs hok
  | submitMove hs hok => exact inv_submitMove _ _ _ _ _ _ _ h hok
  | fulfillDecryption hok => exact inv_fulfill _ _ _ _ _ _ h hok
  | checkAndExpireGame hok => exact inv_checkAndExpire _ _ _ _ h hok
  | batchExpireGames hok => exact inv_batch _ _ _ _ h hok
  | withdraw hok => exact inv_withdraw _ _ _ _ h hok
  | withdrawFees hok => exact inv_withdrawFees _ _ _ _ h hok
  | setPlatformFeePercent hok => exact inv_setPlatformFeePercent _ _ _ _ h hok
  | setFeeRecipient hok => exact inv_setFeeRecipient _ _ _ _ h hok
  | setBetLimits hok => exact inv_setBetLimits _ _ _ _ _ h hok
  | pause hok => exact inv_pause _ _ _ h hok
  | unpause hok => exact inv_unpause _ _ _ h hok
  | emergencyWithdraw hok => exact inv_emergencyWithdraw _ _ _ _ _ h hok
  | ownable hok =>
    subst hok
    exact inv_of_eq s _ h rfl rfl

theorem inv_reachable (s : ContractState) (h : Reachable s) : Inv s := by
  obtain ⟨d, delay, fp, r, lo, hi, hr⟩ := h
  induction hr with
  | refl => exact inv_initialState d delay fp r lo hi
  | tail _ hst ih => exact inv_step _ _ ih hst


/-! ### Reachability of the concrete traces -/

theorem reachable_exS2 : Reachable exS2 := by
  refine ⟨1, 10, 250, 2, 10, 1000, ?_⟩
  have h1 : Step exS0 exS1 := @Step.createGame exS0 exS1 10 50 7 true 100 50 0 (by decide) rfl
  have h2 : Step exS1 exS2 := @Step.joinGame exS1 exS2 11 50 1 8 true 99 0 (by decide) rfl
  exact Relation.ReflTransGen.head h1 (Relation.ReflTransGen.single h2)

theorem reachable_exS4 : Reachable exS4 := by
  refine ⟨1, 10, 250, 2, 10, 1000, ?_⟩
  have h1 : Step exS0 exS1 := @Step.createGame exS0 exS1 10 50 7 true 100 50 0 (by decide) rfl
  have h2 : Step exS1 exS2 := @Step.joinGame exS1 exS2 11 50 1 8 true 99 0 (by decide) rfl
  have h3 : Step exS2 exS3 := @Step.checkAndExpireGame exS2 exS3 1 11 rfl
  have h4 : Step exS3 exS4 := @Step.fulfillDecryption exS3 exS4 99 true 0 12 rfl
  exact Relation.ReflTransGen.head h1 (Relation.ReflTransGen.head h2
    (Relation.ReflTransGen.head h3 (Relation.ReflTransGen.single h4)))

/-! ### Claims -/

/-- C1: the claim that expiry and resolution are mutually exclusive terminal
states fails on the code.  In the concrete trace, game 1 reaches its
decryption deadline and is expired by `checkAndExpireGame` (both stakes of 50
are refunded), yet the later oracle callback `fulfillDecryption` for the same
pending correlation id still succeeds — `_expireGame` never clears
`decryptionRequested` and `fulfillDecryption` never checks `isExpired` — so
the expired game is also resolved and the winner is additionally credited the
98 payout of the 100 pot. -/
theorem expiry_then_fulfill_bug :
    (exS3.games 1).isExpired = true ∧
    exS3.withdrawableBalance 10 = 50 ∧
    exS3.withdrawableBalance 11 = 50 ∧
    fulfillDecryption exS3 99 true 0 12 = .ok exS4 ∧
    (exS4.games 1).decryptionCompleted = true ∧
    (exS4.games 1).isExpired = true ∧
    (exS4.games 1).totalPot = 100 ∧
    exS4.withdrawableBalance 10 = 148 ∧
    exS4.withdrawableBalance 11 = 50 :=
  ⟨rfl, rfl, rfl, rfl, rfl, rfl, rfl, rfl, rfl⟩

/-- C10: the `refunded` terminal flag is never set — in every reachable
state every game record has `refunded = false`; no entry point of the
contract ever writes this field, not even the expiry sweep or a draw
settlement. -/
theorem refunded_flag_never_set (s : ContractState) (h : Reachable s) :
    ∀ g, (s.games g).refunded = false :=
  (inv_reachable s h).refundedFalse

theorem refunded_flag_never_set_witness : (exS4.games 1).refunded = false :=
  refunded_flag_never_set exS4 reachable_exS4 1

/-- C9: in every reachable state each recorded participant already has its
submitted flag set (`move1Submitted` whenever `player1` is set,
`move2Submitted` whenever `player2` is set) — `createGame` and `joinGame`
set the flag together with the participant — and consequently `submitMove`,
called by any non-zero caller on any game, never succeeds and never records
a move. -/
theorem submitMove_always_fails (s : ContractState) (h : Reachable s) :
    (∀ g, ((s.games g).player1 ≠ 0 → (s.games g).move1Submitted = true) ∧
          ((s.games g).player2 ≠ 0 → (s.games g).move2Submitted = true)) ∧
    ∀ (sender : Address) (gid em : Nat) (p : Bool) (now : Nat), sender ≠ 0 →
      txOk (submitMove s sender gid em p now) = false := by
  have hinv := inv_reachable s h
  constructor
  · exact fun g => ⟨hinv.flags1 g, hinv.flags2 g⟩
  · intro sender gid em p now hs
    simp only [submitMove]
    split
    · rfl
    split
    · rfl
    split
    · rfl
    rename_i hplayer
    rw [not_not] at hplayer
    split
    · rfl
    split
    · rfl
    split
    · rename_i hp1
      split
      · rfl
      · rename_i hsub
        exact absurd (hinv.flags1 gid (by rw [← hp1]; exact hs)) hsub
    · rename_i hp1
      have hp2 : sender = (s.games gid).player2 := hplayer.resolve_left hp1
      split
      · rfl
      · rename_i hsub
        exact absurd (hinv.flags2 gid (by rw [← hp2]; exact hs)) hsub

theorem submitMove_always_fails_witness :
    txOk (submitMove exS2 11 1 42 true 0) = false :=
  (submitMove_always_fails exS2 reachable_exS2).2 11 1 42 true 0 (by decide)

/-- The lookup `fulfillLookup` only reads the request-id maps and the id counter. -/
theorem fulfillLookup_congr (s s' : ContractState) (rid : Nat)
    (h1 : s'.reqIdToGameId = s.reqIdToGameId)
    (h2 : s'.latestRequestIds = s.latestRequestIds)
    (h3 : s'.gameIdCounter = s.gameIdCounter) :
    fulfillLookup s' rid = fulfillLookup s rid := by
  simp [fulfillLookup, h1, h2, h3]

/-- After a successful fulfillment the lookup still resolves the request id
to the same game, whose `decryptionRequested` flag is now cleared. -/
theorem fulfill_ok_state (s s' : ContractState) (rid : Nat) (sig : Bool)
    (rc now : Nat) (h : fulfillDecryption s rid sig rc now = .ok s') :
    fulfillLookup s' rid = fulfillLookup s rid ∧
    (s'.games (fulfillLookup s rid)).decryptionRequested = false := by
  simp only [fulfillDecryption] at h
  split at h
  · simp at h
  split at h
  · simp at h
  split at h
  · simp at h
  split at h
  · simp at h
  split at h
  · injection h with h
    subst h
    refine ⟨fulfillLookup_congr _ _ _ rfl rfl rfl, ?_⟩
    simp [setGame]
  · split at h
    · simp at h
    injection h with h
    subst h
    refine ⟨fulfillLookup_congr _ _ _ rfl rfl rfl, ?_⟩
    simp [setGame]

/-- A successful fulfillment implies the lookup found a nonzero game id. -/
theorem fulfill_ok_lookup_ne (s s' : ContractState) (rid : Nat) (sig : Bool)
    (rc now : Nat) (h : fulfillDecryption s rid sig rc now = .ok s') :
    fulfillLookup s rid ≠ 0 := by
  intro h0
  simp only [fulfillDecryption] at h
  rw [h0] at h
  simp at h

/-- C2 counterexample: after the successful fulfillment `exS2 → exS5` of
correlation id 99, replaying id 99 does fail, but with `NoPendingDecrypt`
("No pending decrypt") — the replay is caught by the cleared
`decryptionRequested` flag, not by the `usedRequestIds` replay-protection
map, which is written but never read; the failure is not
`UnknownRequestId`. -/
theorem replay_error_counterexample :
    fulfillDecryption exS2 99 true 0 5 = .ok exS5 ∧
    fulfillDecryption exS5 99 true 0 6 = .error .NoPendingDecrypt ∧
    Err.NoPendingDecrypt ≠ Err.UnknownRequestId :=
  ⟨rfl, rfl, by decide⟩

/-- C2 (amended): for every correlation id already consumed by a successful
`fulfillDecryption`, any second call with that id fails (with
`NoPendingDecrypt` when the signature check passes, rather than the
`UnknownRequest` of the claim) and, the transaction reverting, leaves every
withdrawable balance and the fee counter unchanged — no balance is credited
twice for one game resolution. -/
theorem fulfill_replay_fails (s s' : ContractState) (rid rc now : Nat)
    (h : fulfillDecryption s rid true rc now = .ok s')
    (rc2 now2 : Nat) (sig2 : Bool) :
    txOk (fulfillDecryption s' rid sig2 rc2 now2) = false ∧
    (sig2 = true →
      fulfillDecryption s' rid sig2 rc2 now2 = .error .NoPendingDecrypt) ∧
    (applyTx s' (fulfillDecryption s' rid sig2 rc2 now2)).withdrawableBalance =
      s'.withdrawableBalance ∧
    (applyTx s' (fulfillDecryption s' rid sig2 rc2 now2)).totalFeesCollected =
      s'.totalFeesCollected := by
  obtain ⟨hl, hreqF⟩ := fulfill_ok_state s s' rid true rc now h
  have hgid0 : fulfillLookup s rid ≠ 0 := fulfill_ok_lookup_ne s s' rid true rc now h
  have hsecond : ∃ e, fulfillDecryption s' rid sig2 rc2 now2 = .error e := by
    cases sig2 with
    | false =>
      refine ⟨.InvalidSignature, ?_⟩
      simp only [fulfillDecryption]
      rw [hl, if_neg hgid0]
      simp
    | true =>
      refine ⟨.NoPendingDecrypt, ?_⟩
      simp only [fulfillDecryption]
      rw [hl, if_neg hgid0, hreqF]
      simp
  obtain ⟨e, he⟩ := hsecond
  rw [he]
  refine ⟨rfl, ?_, rfl, rfl⟩
  intro hsig
  subst hsig
  have hNP : fulfillDecryption s' rid true rc2 now2 = .error .NoPendingDecrypt := by
    simp only [fulfillDecryption]
    rw [hl, if_neg hgid0, hreqF]
    simp
  exact he.symm.trans hNP

theorem fulfill_replay_fails_witness :
    txOk (fulfillDecryption exS5 99 true 1 7) = false ∧
    (true = true →
      fulfillDecryption exS5 99 true 1 7 = .error .NoPendingDecrypt) ∧
    (applyTx exS5 (fulfillDecryption exS5 99 true 1 7)).withdrawableBalance =
      exS5.withdrawableBalance ∧
    (applyTx exS5 (fulfillDecryption exS5 99 true 1 7)).totalFeesCollected =
      exS5.totalFeesCollected :=
  fulfill_replay_fails exS2 exS5 99 0 5 rfl 1 7 true

/-- C3: whenever `fulfillDecryption` succeeds with a decisive outcome
(result code ≠ 2), the recorded `payoutAmount` plus the recorded `feeAmount`
of the resolved game equals its `totalPot` exactly, and `feeAmount` is the
integer floor of `totalPot * platformFeePercent / 10000` (at the fee rate in
force when the game is settled). -/
theorem payout_fee_split_exact (s s' : ContractState) (rid : Nat) (sig : Bool)
    (rc now : Nat) (h : fulfillDecryption s rid sig rc now = .ok s')
    (hrc : rc ≠ 2) :
    (s'.games (fulfillLookup s rid)).payoutAmount +
        (s'.games (fulfillLookup s rid)).feeAmount =
      (s'.games (fulfillLookup s rid)).totalPot ∧
    (s'.games (fulfillLookup s rid)).feeAmount =
      (s'.games (fulfillLookup s rid)).totalPot * s.platformFeePercent / 10000 := by
  simp only [fulfillDecryption] at h
  split at h
  · simp at h
  split at h
  · simp at h
  split at h
  · simp at h
  split at h
  · simp at h
  by_cases hfee : (s.games (fulfillLookup s rid)).totalPot <
      (s.games (fulfillLookup s rid)).totalPot * s.platformFeePercent / 10000
  · rw [if_pos hfee] at h
    simp at h
  rw [if_neg hfee] at h
  injection h with h
  subst h
  have hle := Nat.le_of_not_lt hfee
  constructor
  · simp [setGame]
    exact Nat.sub_add_cancel hle
  · simp [setGame]

/-- The state produced by a successful `createGame`. -/
theorem createGame_ok_value (s : ContractState) (sender : Address) (mv em : Nat)
    (p : Bool) (dl bet now : Nat)
    (hp : s.paused = false) (hdl : dl ≠ 0) (hmv : mv = bet)
    (hmin : s.minBet ≤ bet) (hmax : bet ≤ s.maxBet) (hpok : p = true) :
    createGame s sender mv em p dl bet now = .ok
      (setGame { s with gameIdCounter := s.gameIdCounter + 1 }
        (s.gameIdCounter + 1)
        { s.games (s.gameIdCounter + 1) with
          id := s.gameIdCounter + 1
          player1 := sender
          betAmount := bet
          totalPot := bet
          encryptedMove1 := em
          move1Submitted := true
          startTime := now
          moveDeadline := now + dl }) := by
  subst hmv hpok
  simp [createGame, hp, hdl, hmin, hmax]

/-- The state produced by a successful `joinGame`. -/
theorem joinGame_ok_value (s : ContractState) (sender : Address) (mv gid em : Nat)
    (p : Bool) (rq now : Nat)
    (hvalid : 0 < gid ∧ gid ≤ s.gameIdCounter)
    (hp2 : (s.games gid).player2 = 0)
    (hown : sender ≠ (s.games gid).player1)
    (hmv : mv = (s.games gid).betAmount)
    (hdl : now ≤ (s.games gid).moveDeadline)
    (hexp : (s.games gid).isExpired = false)
    (hreq : (s.games gid).decryptionRequested = false)
    (hpok : p = true) :
    joinGame s sender mv gid em p rq now = .ok
      { setGame s gid
          { s.games gid with
            player2 := sender
            encryptedMove2 := em
            move2Submitted := true
            totalPot := (s.games gid).betAmount * 2
            decryptionRequested := true
            decryptRequestTime := now
            decryptDeadline := now + s.maxOracleResponseDelay } with
        latestRequestIds := fun i => if i = gid then rq else s.latestRequestIds i
        reqIdToGameId := fun r => if r = rq then gid else s.reqIdToGameId r } := by
  subst hmv hpok
  simp [joinGame, computeAndRequestDecryption, setGame, hvalid, hp2, hown, hdl,
    hexp, hreq]
  funext i
  by_cases hi : i = gid <;> simp [hi]

/-- C6: for every stake within the configured bounds, `createGame` followed
immediately by a valid `joinGame` with matching attached funds succeeds,
records the second participant with `move2Submitted = true`, yields
`totalPot = 2 * stake`, and in the same atomic step triggers exactly one
pending decryption request for the game (`decryptionRequested = true`, with
the single correlation id recorded in both directions). -/
theorem create_then_join_requests_decryption (s : ContractState)
    (creator joiner : Address) (stake offset encA encB rid now : Nat)
    (hp : s.paused = false) (hoff : offset ≠ 0)
    (hmin : s.minBet ≤ stake) (hmax : stake ≤ s.maxBet)
    (hne : joiner ≠ creator)
    (hfresh : s.games (s.gameIdCounter + 1) = defaultGame) :
    ∃ s1 s2 : ContractState,
      createGame s creator stake encA true offset stake now = .ok s1 ∧
      joinGame s1 joiner stake (s.gameIdCounter + 1) encB true rid now = .ok s2 ∧
      (s2.games (s.gameIdCounter + 1)).player2 = joiner ∧
      (s2.games (s.gameIdCounter + 1)).move2Submitted = true ∧
      (s2.games (s.gameIdCounter + 1)).totalPot = 2 * stake ∧
      (s2.games (s.gameIdCounter + 1)).decryptionRequested = true ∧
      (s2.games (s.gameIdCounter + 1)).decryptionCompleted = false ∧
      s2.latestRequestIds (s.gameIdCounter + 1) = rid ∧
      s2.reqIdToGameId rid = s.gameIdCounter + 1 := by
  have hcg := createGame_ok_value s creator stake encA true offset stake now hp
    hoff rfl hmin hmax rfl
  have hjoin := joinGame_ok_value
    (setGame { s with gameIdCounter := s.gameIdCounter + 1 }
      (s.gameIdCounter + 1)
      { s.games (s.gameIdCounter + 1) with
        id := s.gameIdCounter + 1
        player1 := creator
        betAmount := stake
        totalPot := stake
        encryptedMove1 := encA
        move1Submitted := true
        startTime := now
        moveDeadline := now + offset })
    joiner stake (s.gameIdCounter + 1) encB true rid now
    ⟨Nat.succ_pos _, le_refl _⟩
    (by simp [setGame_games_self, hfresh, defaultGame])
    (by simpa [setGame_games_self] using hne)
    (by simp [setGame_games_self])
    (by simp [setGame_games_self])
    (by simp [setGame_games_self, hfresh, defaultGame])
    (by simp [setGame_games_self, hfresh, defaultGame])
    rfl
  exact ⟨_, _, hcg, hjoin, by simp [setGame], by simp [setGame],
    by simp [setGame, Nat.mul_comm], by simp [setGame],
    by simp [setGame, hfresh, defaultGame], by simp, by simp⟩

theorem create_then_join_requests_decryption_witness :
    ∃ s1 s2 : ContractState,
      createGame exS0 10 50 7 true 100 50 0 = .ok s1 ∧
      joinGame s1 11 50 (exS0.gameIdCounter + 1) 8 true 99 0 = .ok s2 ∧
      (s2.games (exS0.gameIdCounter + 1)).player2 = 11 ∧
      (s2.games (exS0.gameIdCounter + 1)).move2Submitted = true ∧
      (s2.games (exS0.gameIdCounter + 1)).totalPot = 2 * 50 ∧
      (s2.games (exS0.gameIdCounter + 1)).decryptionRequested = true ∧
      (s2.games (exS0.gameIdCounter + 1)).decryptionCompleted = false ∧
      s2.latestRequestIds (exS0.gameIdCounter + 1) = 99 ∧
      s2.reqIdToGameId 99 = exS0.gameIdCounter + 1 :=
  create_then_join_requests_decryption exS0 10 11 50 100 7 8 99 0 rfl
    (by decide) (by decide) (by decide) (by decide) rfl

/-- C4 counterexample: in the concrete paused state `exP` (game 1 open,
owner has paused), `joinGame` — which lacks the `whenNotPaused` modifier —
still succeeds and mutates state, contradicting the claim that every
state-mutating entry point except expiry and withdrawal fails while
paused. -/
theorem joinGame_while_paused_counterexample :
    exP.paused = true ∧ txOk (joinGame exP 11 50 1 8 true 99 0) = true :=
  ⟨rfl, rfl⟩

/-- C4 (amended): the `paused` flag gates exactly `createGame` and
`submitMove` (both fail with `ContractPaused` while paused); `joinGame` is
not pause-gated — it never fails with `ContractPaused` on any state, and it
can succeed while the contract is paused. -/
theorem pause_gating_amended (s : ContractState) (hp : s.paused = true)
    (sender : Address) (mv em : Nat) (p : Bool) (dl bet now gid : Nat)
    (mv2 gid2 em2 : Nat) (p2 : Bool) (rq2 now2 : Nat) :
    createGame s sender mv em p dl bet now = .error .ContractPaused ∧
    submitMove s sender gid em p now = .error .ContractPaused ∧
    ∀ e, joinGame s sender mv2 gid2 em2 p2 rq2 now2 = .error e →
      e ≠ .ContractPaused := by
  refine ⟨?_, ?_, ?_⟩
  · simp [createGame, hp]
  · simp [submitMove, hp]
  · intro e he hpe
    subst hpe
    simp only [joinGame] at he
    split at he
    · simp at he
    split at he
    · simp at he
    split at he
    · simp at he
    split at he
    · simp at he
    split at he
    · simp at he
    split at he
    · simp at he
    split at he
    · simp at he
    split at he
    · simp at he
    simp only [computeAndRequestDecryption] at he
    split at he
    · simp at he
    simp at he

theorem pause_gating_amended_witness :
    createGame exP 11 50 7 true 100 50 0 = .error .ContractPaused ∧
    submitMove exP 11 1 7 true 0 = .error .ContractPaused ∧
    (∀ e, joinGame exP 11 50 1 8 true 99 0 = .error e →
      e ≠ .ContractPaused) :=
  pause_gating_amended exP rfl 11 50 7 true 100 50 0 1 50 1 8 true 99 0

/-- C5 counterexample: in the concrete state `exS3` the caller `10` holds
balance 50; when the external transfer fails, `withdraw` reverts with
`WithdrawFailed` and — the revert rolling back the zeroing — the persistent
balance is 50, not the zero the claim asserts. -/
theorem withdraw_revert_counterexample :
    exS3.withdrawableBalance 10 = 50 ∧
    withdraw exS3 10 false = .error .WithdrawFailed ∧
    (applyTx exS3 (withdraw exS3 10 false)).withdrawableBalance 10 = 50 :=
  ⟨rfl, rfl, rfl⟩

/-- C5 (amended): `withdraw` with balance `b` fails with `NoBalance` when
`b = 0`; otherwise it zeroes the balance before attempting the external
transfer of exactly `b` (a reentrant callee observes balance 0); if the
transfer fails, the whole transaction reverts with
`WithdrawFailed` (source string "Withdraw failed"), which restores the
caller's balance to `b` rather than leaving it at zero. -/
theorem withdraw_behavior_amended (s : ContractState) (sender : Address)
    (t : Bool) (b : Nat) (hb : s.withdrawableBalance sender = b) :
    (b = 0 → withdraw s sender t = .error .NoBalance) ∧
    (b ≠ 0 →
      (withdrawRun s sender t).2 =
        some ({ s with withdrawableBalance :=
                  fun a => if a = sender then 0 else s.withdrawableBalance a },
              b) ∧
      (t = true →
        withdraw s sender t =
          .ok { s with withdrawableBalance :=
                  fun a => if a = sender then 0 else s.withdrawableBalance a }) ∧
      (t = false →
        withdraw s sender t = .error .WithdrawFailed ∧
        (applyTx s (withdraw s sender t)).withdrawableBalance sender = b)) := by
  subst hb
  constructor
  · intro h0
    simp [withdraw, withdrawRun, h0]
  · intro hne
    refine ⟨?_, ?_, ?_⟩
    · cases t <;> simp [withdrawRun, hne]
    · intro ht
      subst ht
      simp [withdraw, withdrawRun, hne]
    · intro ht
      subst ht
      have hw : withdraw s sender false = .error .WithdrawFailed := by
        simp [withdraw, withdrawRun, hne]
      exact ⟨hw, by rw [hw]; rfl⟩

theorem withdraw_behavior_amended_witness :
    ((50 : Nat) = 0 → withdraw exS3 10 false = .error .NoBalance) ∧
    ((50 : Nat) ≠ 0 →
      (withdrawRun exS3 10 false).2 =
        some ({ exS3 with withdrawableBalance :=
                  fun a => if a = 10 then 0 else exS3.withdrawableBalance a },
              50) ∧
      (false = true →
        withdraw exS3 10 false =
          .ok { exS3 with withdrawableBalance :=
                  fun a => if a = 10 then 0 else exS3.withdrawableBalance a }) ∧
      (false = false →
        withdraw exS3 10 false = .error .WithdrawFailed ∧
        (applyTx exS3 (withdraw exS3 10 false)).withdrawableBalance 10 = 50)) :=
  withdraw_behavior_amended exS3 10 false 50 rfl

/-- C7 counterexample: in `exB3` game 1 is already expired and game 2 is
eligible for expiry (sweeping it alone succeeds), yet
`batchExpireGames [1, 2]` reverts wholesale on game 1's `require` and game 2
is not expired — one id's failure does block its siblings. -/
theorem batch_expiry_counterexample :
    (exB3.games 1).isExpired = true ∧
    (exB3.games 2).isExpired = false ∧
    txOk (checkAndExpireGame exB3 2 101) = true ∧
    batchExpireGames exB3 [1, 2] 101 = .error .Expired ∧
    ((applyTx exB3 (batchExpireGames exB3 [1, 2] 101)).games 2).isExpired =
      false :=
  ⟨rfl, rfl, rfl, rfl, rfl⟩

/-- C7 (amended): `batchExpireGames` runs `checkAndExpireGame` on the ids in
order with no per-id failure isolation: as soon as one id's check reverts,
the entire batch reverts with that error — the other ids in the batch are
not expired (and earlier successes in the same batch are rolled back). -/
theorem batch_aborts_on_failure (s s' : ContractState) (pre : List Nat)
    (gid : Nat) (rest : List Nat) (now : Nat) (e : Err)
    (hpre : batchExpireGames s pre now = .ok s')
    (hfail : checkAndExpireGame s' gid now = .error e) :
    batchExpireGames s (pre ++ gid :: rest) now = .error e := by
  induction pre generalizing s with
  | nil =>
    simp only [batchExpireGames] at hpre
    injection hpre with hpre
    subst hpre
    simp only [List.nil_append, batchExpireGames]
    rw [hfail]
  | cons a as ih =>
    simp only [batchExpireGames] at hpre
    simp only [List.cons_append, batchExpireGames]
    split at hpre
    · simp at hpre
    rename_i s1 hck
    exact ih s1 hpre

theorem batch_aborts_on_failure_witness :
    batchExpireGames exB3 ([2] ++ 1 :: []) 101 = .error .Expired :=
  batch_aborts_on_failure exB3 exB4 [2] 1 [] 101 .Expired rfl rfl

/-- C8 counterexample: `withdrawFees` performs the external transfer first
and zeroes `totalFeesCollected` only afterwards: in `exS5` (2 wei of fees
collected) the state observed at the instant of the external call still has
the fee counter at 2, not 0 — the mutation does not precede the transfer as
the claim requires. -/
theorem withdrawFees_order_counterexample :
    exS5.totalFeesCollected = 2 ∧
    (withdrawFeesRun exS5 1 true).2 = some (exS5, 2) ∧
    exS5.totalFeesCollected ≠ 0 ∧
    withdrawFees exS5 1 true = .ok { exS5 with totalFeesCollected := 0 } :=
  ⟨rfl, rfl, by decide, rfl⟩

/-- C8 (amended): `withdraw` does follow checks → state mutation → external
transfer (the caller's balance is already 0 in the state visible during the
external call), but `withdrawFees` does not: during its external call the
fee counter still holds the full pre-call amount and is zeroed only after
the transfer succeeds. -/
theorem effects_ordering_amended (s1 s2 : ContractState) (a1 a2 : Address)
    (t1 t2 : Bool) (obsW obsF : ContractState) (aW aF : Nat)
    (hW : (withdrawRun s1 a1 t1).2 = some (obsW, aW))
    (hF : (withdrawFeesRun s2 a2 t2).2 = some (obsF, aF)) :
    obsW.withdrawableBalance a1 = 0 ∧
    obsF.totalFeesCollected = aF ∧ aF ≠ 0 := by
  simp only [withdrawRun] at hW
  split at hW
  · simp at hW
  have hWmain : obsW.withdrawableBalance a1 = 0 := by
    split at hW <;>
    · simp only [Option.some.injEq, Prod.mk.injEq] at hW
      rw [← hW.1]
      simp
  simp only [withdrawFeesRun] at hF
  split at hF
  · simp at hF
  split at hF
  · simp at hF
  rename_i hown hfees
  split at hF <;>
  · simp only [Option.some.injEq, Prod.mk.injEq] at hF
    exact ⟨hWmain, by rw [← hF.1, ← hF.2], by rw [← hF.2]; exact hfees⟩

theorem effects_ordering_amended_witness :
    ({ exS3 with withdrawableBalance :=
         fun a => if a = 10 then 0 else exS3.withdrawableBalance a } :
       ContractState).withdrawableBalance 10 = 0 ∧
    exS5.totalFeesCollected = 2 ∧ (2 : Nat) ≠ 0 :=
  effects_ordering_amended exS3 exS5 10 1 false true
    { exS3 with withdrawableBalance :=
        fun a => if a = 10 then 0 else exS3.withdrawableBalance a }
    exS5 50 2 rfl rfl

theorem payout_fee_split_exact_witness :
    (exS5.games (fulfillLookup exS2 99)).payoutAmount +
        (exS5.games (fulfillLookup exS2 99)).feeAmount =
      (exS5.games (fulfillLookup exS2 99)).totalPot ∧
    (exS5.games (fulfillLookup exS2 99)).feeAmount =
      (exS5.games (fulfillLookup exS2 99)).totalPot * exS2.platformFeePercent /
        10000 :=
  payout_fee_split_exact exS2 exS5 99 true 0 5 rfl (by decide)

end RPS
